import Mathlib

/-!
# Verification of the object-editor-react schema validation core

This file embeds the schema-description and validation library
(`src/Schema.js` and `src/validation.js`) in Lean 4 and proves
properties of it.

Modelling notes:
* JavaScript values are modelled by the inductive `JSVal`.  Object field
  lists and array element lists are encoded as constructor chains
  (`fcons`/`fnil` and `econs`/`enil`) inside `JSVal` itself, so that all
  recursion is over a single inductive type.  The chain constructors are
  encoding artefacts and never stand for actual JS values.
* Numbers are modelled as `Int` (NaN and floats play no role in the
  claims).  Dates carry only their validity bit (whether `getTime()` is
  NaN).
* JS functions appearing in the library form a closed set of validator
  closures; each is a dedicated constructor (`fnPrim`, `fnArrayOf`, ...).
  `schemaTypeOf f` models the result of `SchemaType(f, type, opts)`:
  a callable equal to `f` whose prototype carries `_isSchemaType: true`.
  The `_type` tag and user options are metadata never consulted by the
  validator and are dropped in this pure value model (the mutable-store
  model for the construction-time behaviour is separate, below).
* Thrown JS exceptions are modelled with `Except Err`; `Err.typeError`
  stands for a runtime `TypeError` (property access on `undefined`/`null`,
  calling a non-function), `Err.schemaError leaf loc` for the
  `invalidSchemaMessage`-built `Error` (the message's data: offending
  node and dotted path), `Err.simpleError` for `Error`s with a fixed
  message and `Err.shapeCtorError s` for the error thrown by the
  `SchemaTypes.shape` constructor (whose message embeds
  `JSON.stringify(s)`).
-/

inductive JSVal : Type where
  | undef : JSVal
  | jnull : JSVal
  | jbool (b : Bool) : JSVal
  | jnum (n : Int) : JSVal
  | jstr (s : String) : JSVal
  | jdate (ok : Bool) : JSVal
  | jarr (elems : JSVal) : JSVal
  | enil : JSVal
  | econs (head : JSVal) (tail : JSVal) : JSVal
  | jobj (fields : JSVal) : JSVal
  | fnil : JSVal
  | fcons (key : String) (value : JSVal) (rest : JSVal) : JSVal
  | fnPlain : JSVal
  | fnIsSomething : JSVal
  | fnPrim (t : String) : JSVal
  | fnIsValidDate : JSVal
  | fnIsArray : JSVal
  | fnIsObject : JSVal
  | fnArrayOf (elementSchema : JSVal) : JSVal
  | fnShapeMatch (shape : JSVal) : JSVal
  | fnOptional (inner : JSVal) : JSVal
  | schemaTypeOf (validatorFn : JSVal) : JSVal
  deriving DecidableEq, Repr

namespace JSVal

/-- `typeof v` as a string. The chain constructors are unreachable junk
and are mapped to "undefined". -/
def typeofStr : JSVal → String
  | undef => "undefined"
  | jnull => "object"
  | jbool _ => "boolean"
  | jnum _ => "number"
  | jstr _ => "string"
  | jdate _ => "object"
  | jarr _ => "object"
  | jobj _ => "object"
  | fnPlain | fnIsSomething | fnPrim _ | fnIsValidDate | fnIsArray
  | fnIsObject | fnArrayOf _ | fnShapeMatch _ | fnOptional _
  | schemaTypeOf _ => "function"
  | enil | econs _ _ | fnil | fcons _ _ _ => "undefined"

/-- JS truthiness of a value. -/
def truthy : JSVal → Bool
  | undef => false
  | jnull => false
  | jbool b => b
  | jnum n => n != 0
  | jstr s => s != ""
  | jdate _ => true
  | jarr _ => true
  | jobj _ => true
  | fnPlain | fnIsSomething | fnPrim _ | fnIsValidDate | fnIsArray
  | fnIsObject | fnArrayOf _ | fnShapeMatch _ | fnOptional _
  | schemaTypeOf _ => true
  | enil | econs _ _ | fnil | fcons _ _ _ => false

/-- `Object.prototype.toString.call(v)` (the library's `toString` helper). -/
def jsToString : JSVal → String
  | undef => "[object Undefined]"
  | jnull => "[object Null]"
  | jbool _ => "[object Boolean]"
  | jnum _ => "[object Number]"
  | jstr _ => "[object String]"
  | jdate _ => "[object Date]"
  | jarr _ => "[object Array]"
  | jobj _ => "[object Object]"
  | fnPlain | fnIsSomething | fnPrim _ | fnIsValidDate | fnIsArray
  | fnIsObject | fnArrayOf _ | fnShapeMatch _ | fnOptional _
  | schemaTypeOf _ => "[object Function]"
  | enil | econs _ _ | fnil | fcons _ _ _ => "[object Undefined]"

/-- Look a key up in an `fcons`-chain of object fields. -/
def lookupField : JSVal → String → Option JSVal
  | fcons k v rest, key => if k = key then some v else lookupField rest key
  | _, _ => none

/-- Number of fields in an `fcons`-chain. -/
def fieldsLen : JSVal → Nat
  | fcons _ _ rest => fieldsLen rest + 1
  | _ => 0

/-- Number of elements in an `econs`-chain. -/
def elemsLen : JSVal → Nat
  | econs _ rest => elemsLen rest + 1
  | _ => 0

/-- The element of an `econs`-chain at an index. -/
def elemGet : JSVal → Nat → JSVal
  | econs h _, 0 => h
  | econs _ t, n + 1 => elemGet t n
  | _, _ => undef

/-- Is every character a decimal digit (and the list non-empty handled
by the caller)? -/
def isDigitList : List Char → Bool
  | [] => true
  | c :: r => c.isDigit && isDigitList r

/-- The numeric value of a digit list. -/
def digitsToNat : List Char → Nat → Nat
  | [], acc => acc
  | c :: r, acc => digitsToNat r (acc * 10 + (c.toNat - 48))

/-- A property key as an array/string index, when it is all digits (the
JS numeric-index coercion, restricted to the canonical forms that
occur). -/
def keyToIndex (key : String) : Option Nat :=
  match key.data with
  | [] => none
  | l => if isDigitList l then some (digitsToNat l 0) else none

/-- Property read `v[key]` for a non-`undefined`, non-`null` receiver
(those two raise a `TypeError`; the callers below only read properties
after checking for them, short-circuiting, or deliberately crashing).
Objects look keys up in their own fields; a `schemaTypeOf` function has
`_isSchemaType: true` on its prototype; arrays and strings expose
`length` and numeric indices; any other read is `undefined`. -/
def getProp : JSVal → String → JSVal
  | jobj fields, key => (lookupField fields key).getD undef
  | schemaTypeOf _, key => if key = "_isSchemaType" then jbool true else undef
  | jarr elems, key =>
      if key = "length" then jnum (elemsLen elems)
      else match keyToIndex key with
        | some i => if i < elemsLen elems then elemGet elems i else undef
        | none => undef
  | jstr s, key =>
      if key = "length" then jnum s.length
      else match keyToIndex key with
        | some i =>
            match s.data.get? i with
            | some c => jstr (String.mk [c])
            | none => undef
        | none => undef
  | _, _ => undef

/-- `Object.keys(v).length` for the receivers `isValidSchema` can reach:
objects and arrays have their fields/indices, everything else has no own
enumerable keys (a `Date` has none, primitives box to key-less wrappers). -/
def numKeys : JSVal → Nat
  | jobj fields => fieldsLen fields
  | jarr elems => elemsLen elems
  | _ => 0

end JSVal

/-- A thrown JS exception, by kind and payload. -/
inductive Err : Type where
  | typeError (msg : String) : Err
  | schemaError (badLeaf : JSVal) (location : String) : Err
  | simpleError (msg : String) : Err
  | shapeCtorError (shape : JSVal) : Err
  deriving DecidableEq, Repr

open JSVal

deriving instance DecidableEq for Except

/-- `validation.isValidSchema(schema, location)`.  Returns `.ok .jnull`
(the source's `return null`) or the thrown error.  Reading
`schema._isSchemaType` on `undefined`/`null` raises a `TypeError` before
any schema-shaped error can be produced. -/
def isValidSchema : JSVal → String → Except Err JSVal
  | undef, _ =>
      .error (.typeError "Cannot read properties of undefined")
  | jnull, _ =>
      .error (.typeError "Cannot read properties of null")
  | s, location =>
      if truthy (getProp s "_isSchemaType") then .ok jnull
      else if typeofStr s = "object" && 0 < numKeys s then
        match s with
        | jobj fields =>
            match isValidSchemaFields fields location with
            | .error e => .error e
            | .ok _ => .ok jnull
        | jarr elems =>
            match isValidSchemaElems elems location 0 with
            | .error e => .error e
            | .ok _ => .ok jnull
        | _ => .ok jnull
      else .error (.schemaError s location)
where
  /-- The `Object.keys(schema).forEach(...)` walk over an object schema's
  fields: errors of the first bad field propagate. -/
  isValidSchemaFields : JSVal → String → Except Err Unit
    | fcons k v rest, location =>
        match isValidSchema v (location ++ "." ++ k) with
        | .error e => .error e
        | .ok _ => isValidSchemaFields rest location
    | _, _ => .ok ()
  /-- The same walk when the schema node is an array: `Object.keys`
  yields the indices "0", "1", ... -/
  isValidSchemaElems : JSVal → String → Nat → Except Err Unit
    | econs h t, location, i =>
        match isValidSchema h (location ++ "." ++ toString i) with
        | .error e => .error e
        | .ok _ => isValidSchemaElems t location (i + 1)
    | _, _, _ => .ok ()

/-- `validation.isValidDate(test)`: true only for a date object whose
timestamp is not NaN (the `ok` bit of the model). -/
def isValidDate (v : JSVal) : Bool :=
  if jsToString v ≠ "[object Date]" then false
  else
    match v with
    | jdate ok => ok
    | _ => false

/-- `validation.isSomething(test)`: anything but `undefined`. -/
def isSomething (v : JSVal) : Bool :=
  typeofStr v ≠ "undefined"

/-- `validation.isObject(test)`: a vanilla object. -/
def isObject (v : JSVal) : Bool :=
  jsToString v = "[object Object]"

/-- `Array.isArray(test)`. -/
def isArrayJS (v : JSVal) : Bool :=
  match v with
  | jarr _ => true
  | _ => false

/-- The message of the error `objectMatchesSchema` throws when handed an
invalid schema. -/
def expectedValidSchemaMsg : String :=
  "Expected \"schema\" to be a valid schema"

/-- The child value `testObject && testObject[key]` handed to a recursive
match: the falsy `testObject` itself when `testObject` is falsy, the
property read otherwise. -/
def childValue (test : JSVal) (key : String) : JSVal :=
  if truthy test then getProp test key else test

mutual

/-- `validation.objectMatchesSchemaInner(schema, testObject)`: apply a
`_isSchemaType`-marked leaf directly (a `TypeError` if the marked node is
not callable), otherwise fold the per-key recursive matches with `&&`
(over an object's fields, or an array's indices — `Object.keys` of an
array yields its indices). Nodes with no keys match vacuously. -/
def objectMatchesSchemaInner (schema test : JSVal) : Except Err Bool :=
  if truthy (getProp schema "_isSchemaType") then callFunction schema test
  else
    match schema with
    | jobj fields => matchSchemaFields fields test
    | jarr elems => matchSchemaElems elems test 0
    | _ => .ok true
termination_by (sizeOf schema, sizeOf test, 3)

/-- The fold of `Object.keys(schema).map(key => inner(schema[key],
test && test[key])).reduce((memo, m) => memo && m, true)` over an object
schema's fields. Every field is evaluated (no short-circuit), the first
thrown error propagates. -/
def matchSchemaFields (fields test : JSVal) : Except Err Bool :=
  match fields with
  | fcons k sub rest =>
      match objectMatchesSchemaInner sub (childValue test k) with
      | .error e => .error e
      | .ok b =>
          match matchSchemaFields rest test with
          | .error e => .error e
          | .ok r => .ok (b && r)
  | _ => .ok true
termination_by (sizeOf fields, sizeOf test, 0)

/-- The same fold when the schema node is an array: keys are the
indices "0", "1", ... -/
def matchSchemaElems (elems test : JSVal) (i : Nat) : Except Err Bool :=
  match elems with
  | econs sub rest =>
      match objectMatchesSchemaInner sub (childValue test (toString i)) with
      | .error e => .error e
      | .ok b =>
          match matchSchemaElems rest test (i + 1) with
          | .error e => .error e
          | .ok r => .ok (b && r)
  | _ => .ok true
termination_by (sizeOf elems, sizeOf test, 0)

/-- Invoking a function value on an argument.  The validator closures of
the library each evaluate their predicate; `schemaTypeOf f` calls
through to the wrapped validator; invoking any non-function value is a
`TypeError`. -/
def callFunction (f arg : JSVal) : Except Err Bool :=
  match f with
  | fnIsSomething => .ok (isSomething arg)
  | fnPrim t => .ok (typeofStr arg == t)
  | fnIsValidDate => .ok (isValidDate arg)
  | fnIsArray => .ok (isArrayJS arg)
  | fnIsObject => .ok (isObject arg)
  | fnArrayOf es => isArrayOfType es arg
  | fnShapeMatch sh =>
      match isValidSchema sh "" with
      | .error _ => .error (.simpleError expectedValidSchemaMsg)
      | .ok _ => objectMatchesSchemaInner sh arg
  | fnOptional inner =>
      if typeofStr arg == "undefined" then .ok true else callFunction inner arg
  | schemaTypeOf g => callFunction g arg
  | _ => .error (.typeError "schema is not a function")
termination_by (sizeOf f, sizeOf arg, 2)

/-- `validation.isArrayOfType(type)` applied to a candidate:
`Array.isArray(testArray) && _.every(testArray, el =>
objectMatchesSchema(type, el))`. -/
def isArrayOfType (es arr : JSVal) : Except Err Bool :=
  match arr with
  | jarr elems => everyElementMatches es elems
  | _ => .ok false
termination_by (sizeOf es, sizeOf arr, 1)

/-- The `_.every` walk: `objectMatchesSchema(es, el)` on each element
(schema validation included, per call), stopping at the first falsy
result. -/
def everyElementMatches (es chain : JSVal) : Except Err Bool :=
  match chain with
  | econs h t =>
      match isValidSchema es "" with
      | .error _ => .error (.simpleError expectedValidSchemaMsg)
      | .ok _ =>
          match objectMatchesSchemaInner es h with
          | .error e => .error e
          | .ok b => if b then everyElementMatches es t else .ok false
  | _ => .ok true
termination_by (sizeOf es, sizeOf chain, 0)

end

/-- `validation.objectMatchesSchema(schema, testObject)`: throw the
fixed-message error if `isValidSchema` throws, otherwise delegate to the
recursive matcher. -/
def objectMatchesSchema (schema test : JSVal) : Except Err Bool :=
  match isValidSchema schema "" with
  | .error _ => .error (.simpleError expectedValidSchemaMsg)
  | .ok _ => objectMatchesSchemaInner schema test

/-- `validation.getOptionalValidator(actuallyValidate)`: the wrapper
closure accepting `undefined` outright. -/
def getOptionalValidator (actuallyValidate : JSVal) : JSVal :=
  fnOptional actuallyValidate

/-- `validation.getPrimitiveValidator(type)`. -/
def getPrimitiveValidator (t : String) : JSVal :=
  fnPrim t

/-- `Schema.SchemaType(validate, type, opts)`: the validator made
callable-with-marker. The `_type` tag and options are display metadata
the validator never reads; they are dropped here (the mutable-store
model below keeps them). -/
def SchemaTypeFn (validate : JSVal) : JSVal :=
  schemaTypeOf validate

/-- `Schema.getOptionalSchemaTypeFactory(validator, typeName)` invoked
once: the optional SchemaType together with its `.isRequired` sibling
(the bare validator, marked). -/
def mkOptionalSchemaType (validator : JSVal) : JSVal × JSVal :=
  (SchemaTypeFn (getOptionalValidator validator), SchemaTypeFn validator)

/-- `SchemaTypes.string()`. -/
def SchemaTypesString : JSVal :=
  (mkOptionalSchemaType (getPrimitiveValidator "string")).1

/-- `SchemaTypes.string().isRequired`. -/
def SchemaTypesStringRequired : JSVal :=
  (mkOptionalSchemaType (getPrimitiveValidator "string")).2

/-- `SchemaTypes.number()`. -/
def SchemaTypesNumber : JSVal :=
  (mkOptionalSchemaType (getPrimitiveValidator "number")).1

/-- `SchemaTypes.number().isRequired`. -/
def SchemaTypesNumberRequired : JSVal :=
  (mkOptionalSchemaType (getPrimitiveValidator "number")).2

/-- `validation.isValidShape(schema)`: requires a vanilla object, then
returns `isValidSchema`'s result (`null` on success). -/
def isValidShape (schema : JSVal) : Except Err JSVal :=
  if isObject schema = false then
    .error (.simpleError ("Expected schema to be an object, but got " ++ typeofStr schema))
  else isValidSchema schema ""

/-- `SchemaTypes.shape(shape)`: throws unless `!isValidShape(shape)` is
falsy; on the (never taken, see below) success branch it returns the
factory's SchemaType, an optional-wrapped `object =>
objectMatchesSchema(shape, object)` closure. -/
def SchemaTypesShape (shape : JSVal) : Except Err JSVal :=
  match isValidShape shape with
  | .error e => .error e
  | .ok r =>
      if truthy r = false then .error (.shapeCtorError shape)
      else .ok (SchemaTypeFn (getOptionalValidator (fnShapeMatch shape)))

/-- Is the value a plain object (the `jobj` constructor)?  This is what
the spec's "structured data" / "plain mapping" means. -/
def isPlainObj : JSVal → Bool
  | jobj _ => true
  | _ => false

/-- Modelled from the spec: the Schema invariant of the data model — a
Schema is "either (a) a single SchemaType (primitive/leaf schema), or
(b) a plain key→value mapping ... whose values are themselves Schemas
(recursively)", where the invariant requires "a non-empty mapping all of
whose values are (recursively) valid Schemas". -/
def specValidSchema : JSVal → Bool
  | schemaTypeOf _ => true
  | jobj fields => 0 < fieldsLen fields && specValidChain fields
  | _ => false
where
  /-- All field values of the mapping are recursively valid Schemas, and
  the chain is a well-formed field list. -/
  specValidChain : JSVal → Bool
    | fnil => true
    | fcons _ v rest => specValidSchema v && specValidChain rest
    | _ => false

/-- The success condition of `isValidSchema`, as a plain recursive
predicate with the error plumbing stripped: a node with a truthy
`_isSchemaType` property, or a `typeof`-object node (plain object or
array) with at least one key all of whose values satisfy it
recursively. -/
def validNode : JSVal → Bool
  | jobj fields =>
      truthy (getProp (jobj fields) "_isSchemaType") ||
        (0 < fieldsLen fields && validChainF fields)
  | jarr elems => 0 < elemsLen elems && validChainE elems
  | schemaTypeOf _ => true
  | _ => false
where
  /-- Every field value is a valid node. -/
  validChainF : JSVal → Bool
    | fcons _ v rest => validNode v && validChainF rest
    | _ => true
  /-- Every array element is a valid node. -/
  validChainE : JSVal → Bool
    | econs h t => validNode h && validChainE t
    | _ => true

/-- Well-formedness derivations, indexed by role:
* `Good 0 s` — `s` is a clean schema: a genuine (registry-built)
  SchemaType leaf, or a non-empty plain-object mapping that does not
  bind the reserved key `_isSchemaType` and whose field values are
  recursively clean;
* `Good 1 f` — `f` is one of the library's validator closures, with
  clean embedded schemas;
* `Good 2 c` — `c` is a well-formed field chain of clean schemas with
  no `_isSchemaType` key. -/
inductive Good : Nat → JSVal → Prop where
  | leaf : Good 1 f → Good 0 (schemaTypeOf f)
  | node : lookupField (fcons k v rest) "_isSchemaType" = none →
      Good 2 (fcons k v rest) → Good 0 (jobj (fcons k v rest))
  | chainNil : Good 2 fnil
  | chainCons : Good 0 v → Good 2 rest → Good 2 (fcons k v rest)
  | someFn : Good 1 fnIsSomething
  | primFn (t : String) : Good 1 (fnPrim t)
  | dateFn : Good 1 fnIsValidDate
  | arrFn : Good 1 fnIsArray
  | objFn : Good 1 fnIsObject
  | optFn : Good 1 g → Good 1 (fnOptional g)
  | arrayOfFn : Good 0 es → Good 1 (fnArrayOf es)
  | shapeFn : Good 0 sh → Good 1 (fnShapeMatch sh)

/-- Every element of the chain matches the schema via
`objectMatchesSchema` (the claim's notion of "every element structurally
matches"). -/
def elementsAllMatch (es : JSVal) : JSVal → Bool
  | econs h t => decide (objectMatchesSchema es h = .ok true) && elementsAllMatch es t
  | _ => true

mutual

/-- Two candidate values agree, as far as the schema `s` looks at them:
field by field on every key the schema mentions (recursively, including
the schemas embedded in `shape` leaves). -/
def agreesOn (s v w : JSVal) : Bool :=
  match s with
  | schemaTypeOf f => agreesFn f v w
  | jobj fields => agreesFields fields v w
  | _ => true
termination_by (sizeOf s, 0)

/-- Agreement on every field of a schema field chain. -/
def agreesFields (fields v w : JSVal) : Bool :=
  match fields with
  | fcons k sub rest =>
      agreeChild sub (childValue v k) (childValue w k) && agreesFields rest v w
  | _ => true
termination_by (sizeOf fields, 0)

/-- The two child values at a schema key agree: they are the same value,
or both are plain objects agreeing on everything `sub` looks at. -/
def agreeChild (sub x y : JSVal) : Bool :=
  x == y || (isPlainObj x && isPlainObj y && agreesOn sub x y)
termination_by (sizeOf sub, 1)

/-- Agreement as far as a validator closure looks at plain-object
arguments: only a `shape` leaf (possibly under the optional wrapper)
inspects fields. -/
def agreesFn (f v w : JSVal) : Bool :=
  match f with
  | fnOptional inner => agreesFn inner v w
  | fnShapeMatch sh => agreesOn sh v w
  | _ => true
termination_by (sizeOf f, 0)

end

/-!
## Mutable-store model of SchemaType construction

`Schema.getOptionalSchemaTypeFactory(validator, typeName)` closes over
one `validator` function shared by every invocation of the returned
factory.  Each invocation mutates function objects: `SchemaType` assigns
`func.__proto__ = {_isSchemaType: true, _type: typeName, ...opts}`.  The
optional SchemaType is a fresh closure per invocation
(`getOptionalValidator(validator)` allocates), but the `.isRequired`
variant is `SchemaType(validator, ...)` — the shared `validator` object
itself, whose prototype is overwritten on every invocation.

Function objects live in a store (a list indexed by allocation order);
each holds its prototype properties and its own properties (`isRequired`
references another function by id).
-/

/-- A function object: prototype properties and own properties (the
latter reference other function objects by store id). -/
structure FnObj where
  proto : List (String × JSVal)
  own : List (String × Nat)
  deriving DecidableEq, Repr

/-- Set a key in an association list, JS-object style: overwrite in
place if present, append otherwise. -/
def setAssoc {α : Type} : List (String × α) → String → α → List (String × α)
  | [], k, v => [(k, v)]
  | (k', v') :: rest, k, v =>
      if k' = k then (k, v) :: rest else (k', v') :: setAssoc rest k v

/-- Look a key up in an association list. -/
def lookupAssoc {α : Type} : List (String × α) → String → Option α
  | [], _ => none
  | (k', v') :: rest, k => if k' = k then some v' else lookupAssoc rest k

/-- The object literal `{...base, ...opts}`: later spreads win. -/
def spreadProps (base opts : List (String × JSVal)) : List (String × JSVal) :=
  opts.foldl (fun acc kv => setAssoc acc kv.1 kv.2) base

/-- Update the function object at an id. -/
def modifyFn (st : List FnObj) (fid : Nat) (f : FnObj → FnObj) : List FnObj :=
  match st[fid]? with
  | some o => st.set fid (f o)
  | none => st

/-- Allocate a fresh function object (a new closure). -/
def allocFn (st : List FnObj) : Nat × List FnObj :=
  (st.length, st ++ [⟨[], []⟩])

/-- `Schema.SchemaType(validate, type, opts)` on the store: overwrite
the prototype of the function object `fid` with
`{_isSchemaType: true, _type: type, ...opts}` (and return `fid`, the
same function). -/
def schemaTypeStore (st : List FnObj) (fid : Nat) (typeName : String)
    (opts : List (String × JSVal)) : List FnObj :=
  modifyFn st fid fun o =>
    { o with
      proto := spreadProps
        [("_isSchemaType", JSVal.jbool true), ("_type", JSVal.jstr typeName)] opts }

/-- One invocation of the factory returned by
`Schema.getOptionalSchemaTypeFactory(validator, typeName)`, with
`validator` the shared function object `validatorId`:
allocate the fresh optional closure, run `SchemaType` on it, run
`SchemaType` on the shared validator (the `.isRequired` variant!), and
store the `isRequired` own-property reference. Returns the optional
SchemaType's id and the new store. -/
def invokeOptionalFactory (validatorId : Nat) (typeName : String)
    (opts : List (String × JSVal)) (st : List FnObj) : Nat × List FnObj :=
  let a := allocFn st
  let st2 := schemaTypeStore a.2 a.1 typeName opts
  let st3 := schemaTypeStore st2 validatorId typeName opts
  let st4 := modifyFn st3 a.1 fun o =>
    { o with own := setAssoc o.own "isRequired" validatorId }
  (a.1, st4)

/-- Read a prototype property of a function object. -/
def readProtoProp (st : List FnObj) (fid : Nat) (k : String) : Option JSVal :=
  match st[fid]? with
  | some o => lookupAssoc o.proto k
  | none => none

/-- The whole prototype of a function object. -/
def readProto (st : List FnObj) (fid : Nat) : List (String × JSVal) :=
  match st[fid]? with
  | some o => o.proto
  | none => []

/-- The `.isRequired` own property of a function object: the id of the
SchemaType it references. -/
def isRequiredOf (st : List FnObj) (fid : Nat) : Option Nat :=
  match st[fid]? with
  | some o => lookupAssoc o.own "isRequired"
  | none => none

/-- Is the value an actual JS value — not one of the chain-encoding
artefact constructors (`enil`/`econs`/`fnil`/`fcons`), which only occur
inside `jarr`/`jobj`? -/
def realVal : JSVal → Bool
  | enil | econs _ _ | fnil | fcons _ _ _ => false
  | _ => true

/-- The statement proved by induction over `Good` derivations: clean
schemas validate successfully and match without throwing, clean
validator closures never throw, clean field chains walk and match
without throwing. -/
def NoThrowP : Nat → JSVal → Prop
  | 0, s => (∀ loc, isValidSchema s loc = .ok jnull) ∧
      ∀ v, ∃ b, objectMatchesSchemaInner s v = .ok b
  | 1, f => ∀ v, ∃ b, callFunction f v = .ok b
  | 2, c => (∀ loc, isValidSchema.isValidSchemaFields c loc = .ok ()) ∧
      ∀ v, ∃ b, matchSchemaFields c v = .ok b
  | _, _ => True

/-- The statement proved by induction over `Good` derivations for the
agreement property: two plain objects agreeing on everything a clean
schema looks at produce the same match result. -/
def AgreeP : Nat → JSVal → Prop
  | 0, s => ∀ v w, isPlainObj v = true → isPlainObj w = true →
      agreesOn s v w = true →
      objectMatchesSchemaInner s v = objectMatchesSchemaInner s w
  | 1, f => ∀ v w, isPlainObj v = true → isPlainObj w = true →
      agreesFn f v w = true →
      callFunction f v = callFunction f w
  | 2, c => ∀ v w, isPlainObj v = true → isPlainObj w = true →
      agreesFields c v w = true →
      matchSchemaFields c v = matchSchemaFields c w
  | _, _ => True

theorem good_noThrow {role : Nat} {s : JSVal} (h : Good role s) :
    NoThrowP role s := by
  induction h with
  | @leaf f hf ih =>
      simp only [NoThrowP] at ih ⊢
      refine ⟨fun loc => by simp [isValidSchema, getProp, truthy], fun v => ?_⟩
      obtain ⟨b, hb⟩ := ih v
      refine ⟨b, ?_⟩
      simp [objectMatchesSchemaInner, getProp, truthy, callFunction, hb]
  | @node k v rest hlk hchain ih =>
      simp only [NoThrowP] at ih ⊢
      constructor
      · intro loc
        simp [isValidSchema, getProp, hlk, truthy, typeofStr, numKeys, fieldsLen,
          ih.1 loc]
      · intro t
        obtain ⟨b, hb⟩ := ih.2 t
        refine ⟨b, ?_⟩
        simp [objectMatchesSchemaInner, getProp, hlk, truthy, hb]
  | chainNil =>
      simp only [NoThrowP]
      exact ⟨fun loc => by simp [isValidSchema.isValidSchemaFields],
        fun v => ⟨true, by simp [matchSchemaFields]⟩⟩
  | @chainCons v rest k hv hrest ihv ihrest =>
      simp only [NoThrowP] at ihv ihrest ⊢
      constructor
      · intro loc
        simp [isValidSchema.isValidSchemaFields, ihv.1, ihrest.1]
      · intro t
        obtain ⟨b, hb⟩ := ihv.2 (childValue t k)
        obtain ⟨r, hr⟩ := ihrest.2 t
        exact ⟨b && r, by simp [matchSchemaFields, hb, hr]⟩
  | someFn => exact fun v => ⟨isSomething v, by simp [callFunction]⟩
  | primFn t => exact fun v => ⟨typeofStr v == t, by simp [callFunction]⟩
  | dateFn => exact fun v => ⟨isValidDate v, by simp [callFunction]⟩
  | arrFn => exact fun v => ⟨isArrayJS v, by simp [callFunction]⟩
  | objFn => exact fun v => ⟨isObject v, by simp [callFunction]⟩
  | @optFn g hg ih =>
      simp only [NoThrowP] at ih ⊢
      intro v
      by_cases hu : typeofStr v == "undefined"
      · exact ⟨true, by simp [callFunction, hu]⟩
      · obtain ⟨b, hb⟩ := ih v
        exact ⟨b, by simp [callFunction, hu, hb]⟩
  | @arrayOfFn es hes ih =>
      simp only [NoThrowP] at ih ⊢
      have key : ∀ c, ∃ b, everyElementMatches es c = .ok b := by
        intro c
        induction c
        case econs h t ih1 ih2 =>
          obtain ⟨b, hb⟩ := ih.2 h
          obtain ⟨r, hr⟩ := ih2
          by_cases hbv : b
          · exact ⟨r, by simp [everyElementMatches, ih.1 "", hb, hbv, hr]⟩
          · exact ⟨false, by simp [everyElementMatches, ih.1 "", hb, hbv]⟩
        all_goals exact ⟨true, by simp [everyElementMatches]⟩
      intro v
      match v with
      | jarr elems =>
          obtain ⟨b, hb⟩ := key elems
          exact ⟨b, by simp [callFunction, isArrayOfType, hb]⟩
      | undef | jnull | jbool _ | jnum _ | jstr _ | jdate _ | jobj _ | enil
      | econs _ _ | fnil | fcons _ _ _ | fnPlain | fnIsSomething | fnPrim _
      | fnIsValidDate | fnIsArray | fnIsObject | fnArrayOf _ | fnShapeMatch _
      | fnOptional _ | schemaTypeOf _ =>
          exact ⟨false, by simp [callFunction, isArrayOfType]⟩
  | @shapeFn sh hsh ih =>
      simp only [NoThrowP] at ih ⊢
      intro v
      obtain ⟨b, hb⟩ := ih.2 v
      exact ⟨b, by simp [callFunction, ih.1 "", hb]⟩

theorem good_isValidSchema {s : JSVal} (h : Good 0 s) (loc : String) :
    isValidSchema s loc = .ok jnull :=
  (good_noThrow h).1 loc

theorem good_objectMatchesSchema {s : JSVal} (h : Good 0 s) (v : JSVal) :
    objectMatchesSchema s v = objectMatchesSchemaInner s v := by
  simp [objectMatchesSchema, good_isValidSchema h]

/-- Is the value callable (`typeof v === 'function'`)? -/
def isCallable (v : JSVal) : Bool :=
  typeofStr v = "function"

theorem good_matchInner_ok {s : JSVal} (h : Good 0 s) (v : JSVal) :
    ∃ b, objectMatchesSchemaInner s v = .ok b := by
  have hn := good_noThrow h
  simp only [NoThrowP] at hn
  exact hn.2 v

/-- C1: the spec claims `shape(s)` does not throw for a valid
plain-object schema `s` and returns a factory. The code throws for every
valid shape: `isValidShape` returns `null` on success (its documented
contract) and `shape` tests `!isValidShape(shape)`, so `!null === true`
takes the throw branch. At the concrete valid shape `{a: string()}`,
`isValidShape` succeeds with `null`, yet `SchemaTypes.shape` throws its
"Expected a valid shape" error. -/
theorem claim_C1_shape_constructor_throws_on_valid_shape :
    isValidShape (jobj (fcons "a" SchemaTypesString fnil)) = .ok jnull ∧
    SchemaTypesShape (jobj (fcons "a" SchemaTypesString fnil)) =
      .error (.shapeCtorError (jobj (fcons "a" SchemaTypesString fnil))) := by
  have h : isValidShape (jobj (fcons "a" SchemaTypesString fnil)) = .ok jnull := by
    simp [isValidShape, isObject, jsToString, isValidSchema,
      isValidSchema.isValidSchemaFields, getProp, lookupField, truthy, typeofStr,
      numKeys, fieldsLen, SchemaTypesString, mkOptionalSchemaType, SchemaTypeFn,
      getOptionalValidator, getPrimitiveValidator]
  exact ⟨h, by simp [SchemaTypesShape, h, truthy]⟩

/-- C2 counterexample: the claim says that for the schema
`{x: number().isRequired}` and the primitive candidate `0` the match is
`false`; the code yields `true`, because `testObject && testObject[key]`
evaluates to the falsy `0` itself (not `undefined`), and
`typeof 0 === 'number'`. -/
theorem claim_C2_counterexample :
    objectMatchesSchema (jobj (fcons "x" SchemaTypesNumberRequired fnil)) (jnum 0) =
      .ok true := by
  simp [objectMatchesSchema, objectMatchesSchemaInner, matchSchemaFields,
    callFunction, childValue, isValidSchema, isValidSchema.isValidSchemaFields,
    getProp, lookupField, truthy, typeofStr, numKeys, fieldsLen,
    SchemaTypesNumberRequired, mkOptionalSchemaType, SchemaTypeFn,
    getPrimitiveValidator, getOptionalValidator]

/-- C2 amended: a falsy candidate propagates itself (not `undefined`) to
the child match — matching a single-field schema `{k: sub}` against a
falsy candidate `v` equals matching `sub` directly against `v`. -/
theorem claim_C2_falsy_candidate_propagates (k : String) (sub v : JSVal)
    (hk : k ≠ "_isSchemaType") (hv : truthy v = false) :
    objectMatchesSchemaInner (jobj (fcons k sub fnil)) v =
      objectMatchesSchemaInner sub v := by
  have hchild : childValue v k = v := by simp [childValue, hv]
  have hmarker : getProp (jobj (fcons k sub fnil)) "_isSchemaType" = undef := by
    simp [getProp, lookupField, hk]
  rw [show objectMatchesSchemaInner (jobj (fcons k sub fnil)) v =
        matchSchemaFields (fcons k sub fnil) v by
      simp [objectMatchesSchemaInner, hmarker, truthy]]
  cases h : objectMatchesSchemaInner sub v <;>
    simp [matchSchemaFields, hchild, h]

/-- C2 witness: the amended statement at the concrete input of the
counterexample. -/
theorem claim_C2_witness :
    ("x" : String) ≠ "_isSchemaType" ∧ truthy (jnum 0) = false ∧
    objectMatchesSchemaInner (jobj (fcons "x" SchemaTypesNumberRequired fnil)) (jnum 0) =
      objectMatchesSchemaInner SchemaTypesNumberRequired (jnum 0) :=
  ⟨by decide, by decide,
    claim_C2_falsy_candidate_propagates "x" SchemaTypesNumberRequired (jnum 0)
      (by decide) (by decide)⟩

/-- C6: for a schema rejected by `isValidSchema`, `objectMatchesSchema`
always throws the one fixed-message error, regardless of the candidate
value and of which underlying error `isValidSchema` raised, and never
returns a boolean. (The literal message in the code is
`Expected "schema" to be a valid schema`.) -/
theorem claim_C6_invalid_schema_single_error (s v : JSVal) (e : Err)
    (h : isValidSchema s "" = .error e) :
    objectMatchesSchema s v = .error (.simpleError expectedValidSchemaMsg) := by
  simp [objectMatchesSchema, h]

/-- C6 witness: the empty-object schema is invalid and any match against
it throws the fixed-message error. -/
theorem claim_C6_witness :
    isValidSchema (jobj fnil) "" = .error (.schemaError (jobj fnil) "") ∧
    objectMatchesSchema (jobj fnil) undef =
      .error (.simpleError expectedValidSchemaMsg) := by
  have h : isValidSchema (jobj fnil) "" = .error (.schemaError (jobj fnil) "") := by
    simp [isValidSchema, getProp, lookupField, truthy, typeofStr, numKeys, fieldsLen]
  exact ⟨h, claim_C6_invalid_schema_single_error (jobj fnil) undef _ h⟩

/-- C9: a truthy `_isSchemaType` property is the sole leafhood test —
`isValidSchema` accepts any such value as a leaf, and when the value is
not callable, `objectMatchesSchema` then throws a `TypeError` on every
candidate, because the matcher invokes the leaf as a function. -/
theorem claim_C9_marker_is_sole_leaf_test (o : JSVal) (loc : String)
    (hm : truthy (getProp o "_isSchemaType") = true) :
    isValidSchema o loc = .ok jnull ∧
    (isCallable o = false → ∀ v,
      objectMatchesSchema o v = .error (.typeError "schema is not a function")) := by
  have h1 : ∀ l, isValidSchema o l = .ok jnull := by
    intro l
    cases o <;> simp_all [isValidSchema, getProp, truthy]
  refine ⟨h1 loc, fun hc v => ?_⟩
  have h3 : callFunction o v = .error (.typeError "schema is not a function") := by
    cases o <;> simp_all [callFunction, isCallable, typeofStr, getProp, truthy]
  have h2 : objectMatchesSchemaInner o v = callFunction o v := by
    cases o <;> simp_all [objectMatchesSchemaInner, getProp, truthy]
  simp [objectMatchesSchema, h1 "", h2, h3]

/-- C9 witness: the plain non-callable object `{_isSchemaType: true}`
passes `isValidSchema` and makes every match throw. -/
theorem claim_C9_witness :
    truthy (getProp (jobj (fcons "_isSchemaType" (jbool true) fnil)) "_isSchemaType") = true ∧
    isCallable (jobj (fcons "_isSchemaType" (jbool true) fnil)) = false ∧
    isValidSchema (jobj (fcons "_isSchemaType" (jbool true) fnil)) "" = .ok jnull ∧
    objectMatchesSchema (jobj (fcons "_isSchemaType" (jbool true) fnil)) (jnum 1) =
      .error (.typeError "schema is not a function") := by
  have hm : truthy (getProp (jobj (fcons "_isSchemaType" (jbool true) fnil)) "_isSchemaType") = true := by
    decide
  obtain ⟨h1, h2⟩ := claim_C9_marker_is_sole_leaf_test
    (jobj (fcons "_isSchemaType" (jbool true) fnil)) "" hm
  exact ⟨hm, by decide, h1, h2 (by decide) (jnum 1)⟩

/-- C5 counterexample: the schema `{_isSchemaType: string()}` satisfies
the spec's Schema invariant (a non-empty field mapping with a SchemaType
leaf), yet `objectMatchesSchema` throws on it: the truthy field named
`_isSchemaType` makes the matcher treat the plain object as a leaf and
invoke it. -/
theorem claim_C5_counterexample :
    specValidSchema (jobj (fcons "_isSchemaType" SchemaTypesString fnil)) = true ∧
    objectMatchesSchema (jobj (fcons "_isSchemaType" SchemaTypesString fnil)) (jobj fnil) =
      .error (.typeError "schema is not a function") := by
  constructor
  · decide
  · simp [objectMatchesSchema, isValidSchema, getProp, lookupField, truthy,
      typeofStr, numKeys, fieldsLen, objectMatchesSchemaInner, callFunction,
      SchemaTypesString, mkOptionalSchemaType, SchemaTypeFn, getOptionalValidator,
      getPrimitiveValidator]

/-- C5 amended: for every clean schema (valid, with genuine SchemaType
leaves, and no internal node binding the reserved `_isSchemaType` key)
and every value of any shape, `objectMatchesSchema` returns a boolean
and never throws. -/
theorem claim_C5_valid_schema_matching_never_throws {S : JSVal} (h : Good 0 S)
    (v : JSVal) : ∃ b, objectMatchesSchema S v = .ok b := by
  obtain ⟨b, hb⟩ := good_matchInner_ok h v
  exact ⟨b, by simp [objectMatchesSchema, good_isValidSchema h, hb]⟩

/-- C5 witness: a concrete clean schema matched against a number. -/
theorem claim_C5_witness :
    Good 0 (jobj (fcons "a" SchemaTypesString fnil)) ∧
    ∃ b, objectMatchesSchema (jobj (fcons "a" SchemaTypesString fnil)) (jnum 3) =
      .ok b := by
  have hg : Good 0 (jobj (fcons "a" SchemaTypesString fnil)) :=
    Good.node (by decide)
      (Good.chainCons (Good.leaf (Good.optFn (Good.primFn "string"))) Good.chainNil)
  exact ⟨hg, claim_C5_valid_schema_matching_never_throws hg (jnum 3)⟩

/-- C8: the SchemaType produced by the string factory accepts
`undefined` and exactly the string values and rejects every other
defined value; its `.isRequired` sibling accepts exactly the string
values, additionally rejecting `undefined`. -/
theorem claim_C8_string_schema_type (v : JSVal) (hv : realVal v = true) :
    (∃ b, callFunction SchemaTypesString v = .ok b ∧
      (b = true ↔ (v = undef ∨ ∃ s, v = jstr s))) ∧
    ∃ b, callFunction SchemaTypesStringRequired v = .ok b ∧
      (b = true ↔ ∃ s, v = jstr s) := by
  cases v <;>
    simp_all [realVal, callFunction, SchemaTypesString, SchemaTypesStringRequired,
      mkOptionalSchemaType, SchemaTypeFn, getOptionalValidator,
      getPrimitiveValidator, typeofStr]

/-- C8 witness: the string SchemaType pair evaluated at the number 7,
which both variants reject. -/
theorem claim_C8_witness :
    realVal (jnum 7) = true ∧
    ((∃ b, callFunction SchemaTypesString (jnum 7) = .ok b ∧
      (b = true ↔ (jnum 7 = undef ∨ ∃ s, jnum 7 = jstr s))) ∧
    ∃ b, callFunction SchemaTypesStringRequired (jnum 7) = .ok b ∧
      (b = true ↔ ∃ s, jnum 7 = jstr s)) :=
  ⟨by decide, claim_C8_string_schema_type (jnum 7) (by decide)⟩

theorem every_ok_iff {es : JSVal} (h : Good 0 es) (c : JSVal) :
    ∃ b, everyElementMatches es c = .ok b ∧
      (b = true ↔ elementsAllMatch es c = true) := by
  have hv := good_isValidSchema h ""
  induction c
  case econs hd tl ih1 ih2 =>
    obtain ⟨b, hb⟩ := good_matchInner_ok h hd
    have homs : objectMatchesSchema es hd = .ok b := by
      simp [objectMatchesSchema, hv, hb]
    obtain ⟨r, hr, hiff⟩ := ih2
    by_cases hbv : b = true
    · refine ⟨r, ?_, ?_⟩
      · simp [everyElementMatches, hv, hb, hbv, hr]
      · simp [elementsAllMatch, homs, hbv, hiff]
    · have hbf : b = false := by simpa using hbv
      refine ⟨false, ?_, ?_⟩
      · simp [everyElementMatches, hv, hb, hbf]
      · simp [elementsAllMatch, homs, hbf]
  all_goals exact ⟨true, by simp [everyElementMatches], by simp [elementsAllMatch]⟩

/-- C7: for a clean element schema, the `isArrayOfType` predicate
returns `false` for every non-array input without throwing, and returns
`true` exactly when the input is an array all of whose elements match
the element schema via `objectMatchesSchema`. -/
theorem claim_C7_isArrayOfType (es : JSVal) (h : Good 0 es) (x : JSVal) :
    (isArrayJS x = false → isArrayOfType es x = .ok false) ∧
    ∃ b, isArrayOfType es x = .ok b ∧
      (b = true ↔ ∃ elems, x = jarr elems ∧ elementsAllMatch es elems = true) := by
  constructor
  · intro hx
    cases x <;> simp_all [isArrayJS, isArrayOfType]
  · match x with
    | jarr elems =>
        obtain ⟨b, hb, hiff⟩ := every_ok_iff h elems
        exact ⟨b, by simp [isArrayOfType, hb], by simp [hiff]⟩
    | undef | jnull | jbool _ | jnum _ | jstr _ | jdate _ | jobj _ | enil
    | econs _ _ | fnil | fcons _ _ _ | fnPlain | fnIsSomething | fnPrim _
    | fnIsValidDate | fnIsArray | fnIsObject | fnArrayOf _ | fnShapeMatch _
    | fnOptional _ | schemaTypeOf _ =>
        exact ⟨false, by simp [isArrayOfType], by simp⟩

/-- C7 witness: the number SchemaType as element schema, applied to a
non-array and to a one-element array. -/
theorem claim_C7_witness :
    Good 0 SchemaTypesNumber ∧
    (isArrayJS (jnum 5) = false → isArrayOfType SchemaTypesNumber (jnum 5) = .ok false) ∧
    ∃ b, isArrayOfType SchemaTypesNumber (jarr (econs (jnum 1) enil)) = .ok b ∧
      (b = true ↔ ∃ elems, jarr (econs (jnum 1) enil) = jarr elems ∧
        elementsAllMatch SchemaTypesNumber elems = true) := by
  have hg : Good 0 SchemaTypesNumber :=
    Good.leaf (Good.optFn (Good.primFn "number"))
  exact ⟨hg, (claim_C7_isArrayOfType SchemaTypesNumber hg (jnum 5)).1,
    (claim_C7_isArrayOfType SchemaTypesNumber hg (jarr (econs (jnum 1) enil))).2⟩

theorem marker_key_not_index : keyToIndex "_isSchemaType" = none := by decide

theorem marker_key_not_length : ("_isSchemaType" : String) ≠ "length" := by decide

theorem getProp_jarr_marker (elems : JSVal) :
    getProp (jarr elems) "_isSchemaType" = undef := by
  simp [getProp, marker_key_not_index, marker_key_not_length]

theorem getProp_jstr_marker (s : String) :
    getProp (jstr s) "_isSchemaType" = undef := by
  simp [getProp, marker_key_not_index, marker_key_not_length]

theorem isValidSchema_ok_jnull {s : JSVal} {loc : String} {r : JSVal}
    (h : isValidSchema s loc = .ok r) : r = jnull := by
  cases s
  all_goals simp only [isValidSchema] at h
  all_goals repeat' split at h
  all_goals simp_all

theorem validNodeAux (s : JSVal) :
    (∀ loc, (∃ r, isValidSchema s loc = .ok r) ↔ validNode s = true) ∧
    (∀ loc, isValidSchema.isValidSchemaFields s loc = .ok () ↔
      validNode.validChainF s = true) ∧
    (∀ loc i, isValidSchema.isValidSchemaElems s loc i = .ok () ↔
      validNode.validChainE s = true) := by
  induction s
  case jobj fields ih =>
    refine ⟨fun loc => ?_, fun loc => ?_, fun loc i => ?_⟩
    · by_cases hm : truthy (getProp (jobj fields) "_isSchemaType") = true
      · simp [isValidSchema, hm, validNode, truthy, getProp] at *
        simp [hm]
      · have hm' : truthy (getProp (jobj fields) "_isSchemaType") = false := by
          simpa using hm
        by_cases hlen : 0 < fieldsLen fields
        · rcases hw : isValidSchema.isValidSchemaFields fields loc with e | u
          · have hcf : validNode.validChainF fields = false := by
              have := (ih.2.1 loc).not
              simp [hw] at this
              simpa using this
            simp [isValidSchema, hm', typeofStr, numKeys, hlen, hw, validNode, hcf]
          · have hcf : validNode.validChainF fields = true := (ih.2.1 loc).mp (by simp [hw])
            simp [isValidSchema, hm', typeofStr, numKeys, hlen, hw, validNode, hcf]
        · have hlen' : fieldsLen fields = 0 := by omega
          simp [isValidSchema, hm', typeofStr, numKeys, hlen', validNode]
    · simp [isValidSchema.isValidSchemaFields, validNode.validChainF]
    · simp [isValidSchema.isValidSchemaElems, validNode.validChainE]
  case jarr elems ih =>
    refine ⟨fun loc => ?_, fun loc => ?_, fun loc i => ?_⟩
    · have hm' : truthy (getProp (jarr elems) "_isSchemaType") = false := by
        simp [getProp_jarr_marker, truthy]
      by_cases hlen : 0 < elemsLen elems
      · rcases hw : isValidSchema.isValidSchemaElems elems loc 0 with e | u
        · have hcf : validNode.validChainE elems = false := by
            have := (ih.2.2 loc 0).not
            simp [hw] at this
            simpa using this
          simp [isValidSchema, hm', typeofStr, numKeys, hlen, hw, validNode, hcf]
        · have hcf : validNode.validChainE elems = true := (ih.2.2 loc 0).mp (by simp [hw])
          simp [isValidSchema, hm', typeofStr, numKeys, hlen, hw, validNode, hcf]
      · have hlen' : elemsLen elems = 0 := by omega
        simp [isValidSchema, hm', typeofStr, numKeys, hlen', validNode]
    · simp [isValidSchema.isValidSchemaFields, validNode.validChainF]
    · simp [isValidSchema.isValidSchemaElems, validNode.validChainE]
  case fcons k v rest ihv ihrest =>
    refine ⟨fun loc => ?_, fun loc => ?_, fun loc i => ?_⟩
    · simp [isValidSchema, getProp, truthy, typeofStr, validNode]
    · rcases hv : isValidSchema v (loc ++ "." ++ k) with e | r
      · have hnv : validNode v = false := by
          have := (ihv.1 (loc ++ "." ++ k)).not
          simp [hv] at this
          simpa using this
        simp [isValidSchema.isValidSchemaFields, hv, validNode.validChainF, hnv]
      · have hnv : validNode v = true := (ihv.1 (loc ++ "." ++ k)).mp ⟨r, hv⟩
        simp [isValidSchema.isValidSchemaFields, hv, validNode.validChainF, hnv,
          ihrest.2.1 loc]
    · simp [isValidSchema.isValidSchemaElems, validNode.validChainE]
  case econs h t ihh iht =>
    refine ⟨fun loc => ?_, fun loc => ?_, fun loc i => ?_⟩
    · simp [isValidSchema, getProp, truthy, typeofStr, validNode]
    · simp [isValidSchema.isValidSchemaFields, validNode.validChainF]
    · rcases hv : isValidSchema h (loc ++ "." ++ toString i) with e | r
      · have hnv : validNode h = false := by
          have := (ihh.1 (loc ++ "." ++ toString i)).not
          simp [hv] at this
          simpa using this
        simp [isValidSchema.isValidSchemaElems, hv, validNode.validChainE, hnv]
      · have hnv : validNode h = true := (ihh.1 (loc ++ "." ++ toString i)).mp ⟨r, hv⟩
        simp [isValidSchema.isValidSchemaElems, hv, validNode.validChainE, hnv,
          iht.2.2 loc (i + 1)]
  all_goals
    refine ⟨fun loc => ?_, fun loc => ?_, fun loc i => ?_⟩ <;>
      simp [isValidSchema, isValidSchema.isValidSchemaFields,
        isValidSchema.isValidSchemaElems, validNode, validNode.validChainF,
        validNode.validChainE, getProp, truthy, typeofStr, numKeys,
        marker_key_not_index, marker_key_not_length]

/-- C3 counterexample: the claim says `isValidSchema` fails for every
array; but a non-empty array of SchemaTypes is accepted
(`typeof [] === 'object'` and `Object.keys` yields its indices), so
`isValidSchema([string()])` succeeds. -/
theorem claim_C3_counterexample :
    isValidSchema (jarr (econs SchemaTypesString enil)) "" = .ok jnull := by
  simp [isValidSchema, isValidSchema.isValidSchemaElems, getProp, truthy,
    typeofStr, numKeys, elemsLen, marker_key_not_index, marker_key_not_length,
    SchemaTypesString, mkOptionalSchemaType, SchemaTypeFn, getOptionalValidator,
    getPrimitiveValidator]

/-- C3 amended: `isValidSchema(node)` succeeds exactly when `node` has a
truthy `_isSchemaType` property or is a `typeof`-object node — a plain
object or an array — with at least one key all of whose values are
recursively valid; every other node fails with an error (a
`SchemaValidationError` naming the offending node and its dotted path,
except `undefined` and `null`, where the `_isSchemaType` property read
itself raises a `TypeError`). -/
theorem claim_C3_valid_iff (s : JSVal) (loc : String) :
    isValidSchema s loc = .ok jnull ↔ validNode s = true := by
  constructor
  · intro h
    exact ((validNodeAux s).1 loc).mp ⟨jnull, h⟩
  · intro h
    obtain ⟨r, hr⟩ := ((validNodeAux s).1 loc).mpr h
    have hj := isValidSchema_ok_jnull hr
    rw [hj] at hr
    exact hr

theorem plain_typeof {v : JSVal} (h : isPlainObj v = true) :
    typeofStr v = "object" := by
  cases v <;> simp_all [isPlainObj, typeofStr]

theorem plain_jsToString {v : JSVal} (h : isPlainObj v = true) :
    jsToString v = "[object Object]" := by
  cases v <;> simp_all [isPlainObj, jsToString]

theorem plain_isValidDate {v : JSVal} (h : isPlainObj v = true) :
    isValidDate v = false := by
  cases v <;> simp_all [isPlainObj, isValidDate, jsToString]

theorem plain_isArrayJS {v : JSVal} (h : isPlainObj v = true) :
    isArrayJS v = false := by
  cases v <;> simp_all [isPlainObj, isArrayJS]

theorem plain_isArrayOfType {v : JSVal} (es : JSVal) (h : isPlainObj v = true) :
    isArrayOfType es v = .ok false := by
  cases v <;> simp_all [isPlainObj, isArrayOfType]

theorem good_agree {role : Nat} {s : JSVal} (h : Good role s) : AgreeP role s := by
  induction h with
  | @leaf f hf ih =>
      simp only [AgreeP] at ih ⊢
      intro v w hv hw hag
      have hI : ∀ x, objectMatchesSchemaInner (schemaTypeOf f) x = callFunction f x := by
        intro x
        simp [objectMatchesSchemaInner, getProp, truthy, callFunction]
      rw [hI, hI]
      exact ih v w hv hw (by simpa [agreesOn] using hag)
  | @node k v0 rest hlk hchain ih =>
      simp only [AgreeP] at ih ⊢
      intro v w hv hw hag
      have hm : getProp (jobj (fcons k v0 rest)) "_isSchemaType" = undef := by
        simp [getProp, hlk]
      have hI : ∀ x, objectMatchesSchemaInner (jobj (fcons k v0 rest)) x =
          matchSchemaFields (fcons k v0 rest) x := by
        intro x
        simp [objectMatchesSchemaInner, hm, truthy]
      rw [hI, hI]
      exact ih v w hv hw (by simpa [agreesOn] using hag)
  | chainNil =>
      intro v w _ _ _
      simp [matchSchemaFields]
  | @chainCons v0 rest k hv0 hrest ih0 ihrest =>
      simp only [AgreeP] at ih0 ihrest ⊢
      intro v w hv hw hag
      simp only [agreesFields, Bool.and_eq_true] at hag
      obtain ⟨hch, hrestag⟩ := hag
      have heq : objectMatchesSchemaInner v0 (childValue v k) =
          objectMatchesSchemaInner v0 (childValue w k) := by
        simp only [agreeChild, Bool.or_eq_true, beq_iff_eq, Bool.and_eq_true] at hch
        rcases hch with hch | ⟨⟨hpx, hpy⟩, hagsub⟩
        · rw [hch]
        · exact ih0 _ _ hpx hpy hagsub
      have hrest' : matchSchemaFields rest v = matchSchemaFields rest w :=
        ihrest v w hv hw hrestag
      simp [matchSchemaFields, heq, hrest']
  | someFn =>
      intro v w hv hw _
      simp [callFunction, isSomething, plain_typeof hv, plain_typeof hw]
  | primFn t =>
      intro v w hv hw _
      simp [callFunction, plain_typeof hv, plain_typeof hw]
  | dateFn =>
      intro v w hv hw _
      simp [callFunction, plain_isValidDate hv, plain_isValidDate hw]
  | arrFn =>
      intro v w hv hw _
      simp [callFunction, plain_isArrayJS hv, plain_isArrayJS hw]
  | objFn =>
      intro v w hv hw _
      simp [callFunction, isObject, plain_jsToString hv, plain_jsToString hw]
  | @optFn g hg ih =>
      simp only [AgreeP] at ih ⊢
      intro v w hv hw hag
      simp only [agreesFn] at hag
      simp [callFunction, plain_typeof hv, plain_typeof hw]
      exact ih v w hv hw hag
  | @arrayOfFn es hes ih =>
      intro v w hv hw _
      simp [callFunction, plain_isArrayOfType es hv, plain_isArrayOfType es hw]
  | @shapeFn sh hsh ih =>
      simp only [AgreeP] at ih ⊢
      intro v w hv hw hag
      simp only [agreesFn] at hag
      rcases hval : isValidSchema sh "" with e | r <;>
        simp [callFunction, hval, ih v w hv hw hag]

/-- C10: matching inspects only the schema's own keys — for a clean
schema and two plain-object candidates that agree on every key the
schema (recursively, including embedded shape schemas) looks at,
`objectMatchesSchema` gives the same result; in particular extra fields
whose keys do not occur in the schema never change the match result. -/
theorem claim_C10_subset_conformance {S v w : JSVal} (h : Good 0 S)
    (hv : isPlainObj v = true) (hw : isPlainObj w = true)
    (hag : agreesOn S v w = true) :
    objectMatchesSchema S v = objectMatchesSchema S w := by
  have ha := good_agree h
  simp only [AgreeP] at ha
  rw [good_objectMatchesSchema h, good_objectMatchesSchema h]
  exact ha v w hv hw hag

/-- C10 witness: the schema `{a: string()}` matched against `{a: "hi"}`
and `{a: "hi", b: 1}` — the extra field `b` does not matter. -/
theorem claim_C10_witness :
    Good 0 (jobj (fcons "a" SchemaTypesString fnil)) ∧
    isPlainObj (jobj (fcons "a" (jstr "hi") fnil)) = true ∧
    isPlainObj (jobj (fcons "a" (jstr "hi") (fcons "b" (jnum 1) fnil))) = true ∧
    agreesOn (jobj (fcons "a" SchemaTypesString fnil))
      (jobj (fcons "a" (jstr "hi") fnil))
      (jobj (fcons "a" (jstr "hi") (fcons "b" (jnum 1) fnil))) = true ∧
    objectMatchesSchema (jobj (fcons "a" SchemaTypesString fnil))
        (jobj (fcons "a" (jstr "hi") fnil)) =
      objectMatchesSchema (jobj (fcons "a" SchemaTypesString fnil))
        (jobj (fcons "a" (jstr "hi") (fcons "b" (jnum 1) fnil))) := by
  have hg : Good 0 (jobj (fcons "a" SchemaTypesString fnil)) :=
    Good.node (by decide)
      (Good.chainCons (Good.leaf (Good.optFn (Good.primFn "string"))) Good.chainNil)
  have hag : agreesOn (jobj (fcons "a" SchemaTypesString fnil))
      (jobj (fcons "a" (jstr "hi") fnil))
      (jobj (fcons "a" (jstr "hi") (fcons "b" (jnum 1) fnil))) = true := by
    simp [agreesOn, agreesFields, agreeChild, childValue, truthy, getProp,
      lookupField]
  exact ⟨hg, by decide, by decide, hag,
    claim_C10_subset_conformance hg (by decide) (by decide) hag⟩

/-- C4 counterexample: invoking the string factory twice with different
options mutates the first SchemaType's `.isRequired` variant.  Starting
from a store holding only the shared validator (id 0), the first
invocation `string({foo: 1})` leaves the first SchemaType's
`.isRequired` (the shared validator) with `foo = 1` on its prototype;
the second invocation `string({foo: 2})` overwrites that same prototype
with `foo = 2`, and both SchemaTypes' `.isRequired` reference the same
function object — mutable state is shared, and the first SchemaType's
options metadata observed through `.isRequired` has changed. -/
theorem claim_C4_counterexample :
    isRequiredOf (invokeOptionalFactory 0 "string" [("foo", jnum 1)] [⟨[], []⟩]).2
      (invokeOptionalFactory 0 "string" [("foo", jnum 1)] [⟨[], []⟩]).1 = some 0 ∧
    readProtoProp (invokeOptionalFactory 0 "string" [("foo", jnum 1)] [⟨[], []⟩]).2
      0 "foo" = some (jnum 1) ∧
    readProtoProp (invokeOptionalFactory 0 "string" [("foo", jnum 2)]
        (invokeOptionalFactory 0 "string" [("foo", jnum 1)] [⟨[], []⟩]).2).2
      0 "foo" = some (jnum 2) ∧
    isRequiredOf (invokeOptionalFactory 0 "string" [("foo", jnum 2)]
        (invokeOptionalFactory 0 "string" [("foo", jnum 1)] [⟨[], []⟩]).2).2
      (invokeOptionalFactory 0 "string" [("foo", jnum 2)]
        (invokeOptionalFactory 0 "string" [("foo", jnum 1)] [⟨[], []⟩]).2).1 =
      some 0 ∧
    readProtoProp (invokeOptionalFactory 0 "string" [("foo", jnum 2)]
        (invokeOptionalFactory 0 "string" [("foo", jnum 1)] [⟨[], []⟩]).2).2
        0 "foo" ≠
      readProtoProp (invokeOptionalFactory 0 "string" [("foo", jnum 1)] [⟨[], []⟩]).2
        0 "foo" := by
  decide

/-- C4 amended: each factory invocation allocates a fresh optional
SchemaType whose own prototype later invocations leave unchanged, but
every invocation's `.isRequired` variant is the factory's one shared
validator function, whose prototype is overwritten with the latest
invocation's type tag and options — successive constructions share and
mutate that state. -/
theorem claim_C4_isRequired_is_shared_validator (tn1 tn2 : String)
    (opts1 opts2 : List (String × JSVal)) :
    isRequiredOf (invokeOptionalFactory 0 tn2 opts2
        (invokeOptionalFactory 0 tn1 opts1 [⟨[], []⟩]).2).2
      (invokeOptionalFactory 0 tn1 opts1 [⟨[], []⟩]).1 = some 0 ∧
    isRequiredOf (invokeOptionalFactory 0 tn2 opts2
        (invokeOptionalFactory 0 tn1 opts1 [⟨[], []⟩]).2).2
      (invokeOptionalFactory 0 tn2 opts2
        (invokeOptionalFactory 0 tn1 opts1 [⟨[], []⟩]).2).1 = some 0 ∧
    readProto (invokeOptionalFactory 0 tn2 opts2
        (invokeOptionalFactory 0 tn1 opts1 [⟨[], []⟩]).2).2 0 =
      spreadProps [("_isSchemaType", jbool true), ("_type", jstr tn2)] opts2 ∧
    readProto (invokeOptionalFactory 0 tn2 opts2
        (invokeOptionalFactory 0 tn1 opts1 [⟨[], []⟩]).2).2
        (invokeOptionalFactory 0 tn1 opts1 [⟨[], []⟩]).1 =
      readProto (invokeOptionalFactory 0 tn1 opts1 [⟨[], []⟩]).2
        (invokeOptionalFactory 0 tn1 opts1 [⟨[], []⟩]).1 := by
  refine ⟨?_, ?_, ?_, ?_⟩ <;>
    simp [invokeOptionalFactory, allocFn, schemaTypeStore, modifyFn,
      isRequiredOf, readProto, lookupAssoc, setAssoc, spreadProps]
